import Mathlib

/-!
# Verification of the hntldr persistence core (`src/store.py`, `src/scheduler.py`,
`src/updater.py`)

Shallow embedding of the SQLite-backed `Store` (dedup ledger `posted_items` and
update-task queue `message_updates`), of one iteration of the update worker loop,
and of the poll cycle.  Timestamps are modelled as natural numbers (minutes for
the task queue, with 1 day = 1440 minutes for the retention sweep): the code
stores UTC ISO-8601 strings and compares them lexicographically, which agrees
with chronological order, so `Nat` with `≤`/`<` is a faithful model of the
string comparisons performed by the SQL queries.

Both tables are modelled as lists of rows; `INSERT OR REPLACE` on the `TEXT
PRIMARY KEY hn_id` is modelled as "remove all rows with that key, append the
new row", `DELETE ... WHERE p` as `List.filter (¬ p)`, and `SELECT` as a pure
function that also returns the (unchanged) state, mirroring that a `SELECT`
does not write.
-/

namespace Hntldr

/-- A row of the `posted_items` table (the dedup ledger). -/
structure PostedItem where
  hn_id : String
  title : String
  posted_at : Nat
  score : Int
  deriving Repr, DecidableEq

/-- A row of the `message_updates` table (the update-task queue).
`phase` is the `TEXT` column holding `"10min"` or `"30min"`, exactly as the
code stores and compares it. -/
structure UpdateTask where
  hn_id : String
  message_id : Nat
  chat_id : String
  title : String
  hook : String
  url : String
  score : Int
  comments : Int
  posted_at : Nat
  last_updated_at : Nat
  update_count : Nat
  phase : String
  next_update_at : Nat
  expires_at : Nat
  deriving Repr, DecidableEq

/-- The persistent state of `Store`: the two tables of the SQLite database. -/
structure StoreState where
  posted_items : List PostedItem
  message_updates : List UpdateTask
  deriving Repr, DecidableEq

/-- The empty database, as created by `Store._init_db`. -/
def StoreState.empty : StoreState := ⟨[], []⟩

/-- `Store.has_been_posted`: `SELECT 1 FROM posted_items WHERE hn_id = ?`;
returns the untouched state together with whether a row exists. -/
def has_been_posted (s : StoreState) (hn_id : String) : StoreState × Bool :=
  (s, s.posted_items.any (fun r => r.hn_id == hn_id))

/-- `Store.mark_posted`: `INSERT OR REPLACE INTO posted_items` keyed by the
primary key `hn_id`, with `posted_at = now`. -/
def mark_posted (now : Nat) (s : StoreState) (hn_id title : String) (score : Int) :
    StoreState :=
  { s with posted_items :=
      s.posted_items.filter (fun r => r.hn_id != hn_id) ++
        [{ hn_id := hn_id, title := title, posted_at := now, score := score }] }

/-- `Store.prune_old`: `DELETE FROM posted_items WHERE posted_at < cutoff` with
`cutoff = now - days` (days measured in minutes: `days * 1440`).  The second
component is the `rowcount` of the `DELETE`, which the code writes to the log;
the Python function itself returns `None` (see `prune_old_return`). -/
def prune_old (now days : Nat) (s : StoreState) : StoreState × Nat :=
  let cutoff := now - days * 1440
  ({ s with posted_items :=
      s.posted_items.filter (fun r => !(decide (r.posted_at < cutoff))) },
   (s.posted_items.filter (fun r => decide (r.posted_at < cutoff))).length)

/-- The value the Python function `Store.prune_old` returns to its caller: its
body ends without a `return` statement, so every call evaluates to `None`
(modelled as `none`); the deleted-row count is only logged, never returned.
A function that returned the count would produce `some count` here. -/
def prune_old_return (_now _days : Nat) (_s : StoreState) : Option Nat :=
  none

/-- `Store.add_update_task`: `INSERT OR REPLACE INTO message_updates` with
`update_count = 0`, `phase = '10min'`, `next_update_at = now + 10 min`,
`expires_at = now + 3 h` (180 minutes). -/
def add_update_task (now : Nat) (s : StoreState) (hn_id : String) (message_id : Nat)
    (chat_id title hook url : String) (score comments : Int) : StoreState :=
  let next_update := now + 10
  let expires := now + 180
  { s with message_updates :=
      s.message_updates.filter (fun t => t.hn_id != hn_id) ++
        [{ hn_id := hn_id, message_id := message_id, chat_id := chat_id,
           title := title, hook := hook, url := url, score := score,
           comments := comments, posted_at := now, last_updated_at := now,
           update_count := 0, phase := "10min", next_update_at := next_update,
           expires_at := expires }] }

/-- Whether a `message_updates` row is returned by the `WHERE` clause of
`get_next_update_task`: `next_update_at <= now AND expires_at > now`. -/
def isDue (now : Nat) (t : UpdateTask) : Bool :=
  decide (t.next_update_at ≤ now) && decide (now < t.expires_at)

/-- One step of scanning for the `ORDER BY next_update_at LIMIT 1` row: keep
the candidate with the smaller `next_update_at` (the earlier one on ties). -/
def earliestStep (acc : Option UpdateTask) (t : UpdateTask) : Option UpdateTask :=
  match acc with
  | none => some t
  | some b => if t.next_update_at < b.next_update_at then some t else some b

/-- `ORDER BY next_update_at LIMIT 1` over a result list: the row with the
smallest `next_update_at` (the first such row on ties). -/
def pickEarliest (l : List UpdateTask) : Option UpdateTask :=
  l.foldl earliestStep none

/-- `Store.get_next_update_task`:
`SELECT * FROM message_updates WHERE next_update_at <= ? AND expires_at > ?
ORDER BY next_update_at LIMIT 1`.  A read-only query: the state comes back
unchanged. -/
def get_next_update_task (now : Nat) (s : StoreState) :
    StoreState × Option UpdateTask :=
  (s, pickEarliest (s.message_updates.filter (isDue now)))

/-- The schedule computation inside `Store.advance_update_task`, given the row
fetched by `SELECT update_count, phase, expires_at ... WHERE hn_id = ?`:
increment `update_count`; if `phase == '10min'` and the new count is `>= 3`,
switch the phase to `'30min'`; the interval is 10 minutes in the `'10min'`
phase and 30 minutes otherwise; `next_update = now + interval`.
Returns `(update_count, phase, next_update)`. -/
def advance_compute (now : Nat) (row : UpdateTask) : Nat × String × Nat :=
  let update_count := row.update_count + 1
  let phase := if row.phase == "10min" && decide (3 ≤ update_count)
               then "30min" else row.phase
  let interval := if phase == "10min" then 10 else 30
  (update_count, phase, now + interval)

/-- `Store.advance_update_task`: look up the row by `hn_id` (no-op when
absent); compute the new count, phase and `next_update` via `advance_compute`;
if `next_update >= expires_at` delete the row, otherwise
`UPDATE ... SET score, comments, update_count, phase, next_update_at,
last_updated_at WHERE hn_id = ?`. -/
def advance_update_task (now : Nat) (s : StoreState) (hn_id : String)
    (new_score new_comments : Int) : StoreState :=
  match s.message_updates.find? (fun t => t.hn_id == hn_id) with
  | none => s
  | some row =>
    if row.expires_at ≤ (advance_compute now row).2.2 then
      { s with message_updates :=
          s.message_updates.filter (fun t => t.hn_id != hn_id) }
    else
      { s with message_updates :=
          s.message_updates.map (fun t =>
            if t.hn_id == hn_id then
              { t with score := new_score, comments := new_comments,
                       update_count := (advance_compute now row).1,
                       phase := (advance_compute now row).2.1,
                       next_update_at := (advance_compute now row).2.2,
                       last_updated_at := now }
            else t) }

/-- `Store.remove_expired_updates`:
`DELETE FROM message_updates WHERE expires_at <= now`. -/
def remove_expired_updates (now : Nat) (s : StoreState) : StoreState :=
  { s with message_updates :=
      s.message_updates.filter (fun t => decide (now < t.expires_at)) }

/-! ## One iteration of the update worker loop (`updater.update_worker`) -/

/-- Outcome of `bot.edit_message_text` as the worker's `try/except` around it
distinguishes the cases: success; `RetryAfter` carrying a retry delay in
seconds; `BadRequest` whose message contains "message is not modified"; any
other `BadRequest`. -/
inductive EditResult where
  | ok
  | retryAfter (seconds : Nat)
  | badRequestNotModified
  | badRequestOther (msg : String)
  deriving Repr, DecidableEq

/-- Observable side effects of one pass through the worker loop body, in
program order: the sleeps, the outbound calls, and the store mutations it
triggers. -/
inductive WAction where
  | sleep (seconds : Nat)
  | removeExpiredCalled
  | fetchItem (hn_id : String)
  | editMessage (chat_id : String) (message_id : Nat)
  | advanceCalled (hn_id : String) (score comments : Int)
  deriving Repr, DecidableEq

/-- One pass through the `while True` body of `update_worker`.
`fetch` is the result of `fetch_hn_item` for the dequeued task (`none` models
a falsy result), `edit` the outcome of the edit attempt (consulted only when
the code reaches the edit).  Returns the store state after the pass, the
actions performed, and the updated idle-cycle counter. -/
def update_worker_iteration (now : Nat) (s : StoreState) (cycle : Nat)
    (fetch : Option (Int × Int)) (edit : EditResult) :
    StoreState × List WAction × Nat :=
  match (get_next_update_task now s).2 with
  | none =>
    let cycle' := cycle + 1
    if cycle' % 40 == 0 then
      (remove_expired_updates now s, [.sleep 15, .removeExpiredCalled], cycle')
    else
      (s, [.sleep 15], cycle')
  | some task =>
    match fetch with
    | none =>
      (advance_update_task now s task.hn_id task.score task.comments,
       [.fetchItem task.hn_id,
        .advanceCalled task.hn_id task.score task.comments, .sleep 1],
       cycle)
    | some (new_score, new_comments) =>
      if new_score ≠ task.score ∨ new_comments ≠ task.comments then
        match edit with
        | .retryAfter r =>
          (s, [.fetchItem task.hn_id, .editMessage task.chat_id task.message_id,
               .sleep r], cycle)
        | _ =>
          (advance_update_task now s task.hn_id new_score new_comments,
           [.fetchItem task.hn_id, .editMessage task.chat_id task.message_id,
            .advanceCalled task.hn_id new_score new_comments, .sleep 1],
           cycle)
      else
        (advance_update_task now s task.hn_id new_score new_comments,
         [.fetchItem task.hn_id,
          .advanceCalled task.hn_id new_score new_comments, .sleep 1],
         cycle)

/-! ## The poll cycle (`scheduler.poll_and_post`) -/

/-- A story dictionary as produced by `fetch_top_stories_with_details`; each
field is read in `poll_and_post` with `story.get(key, default)`, so a missing
key is modelled by the default (`""` for `id`, `0` for the counters). -/
structure Story where
  id : String
  title : String
  url : String
  points : Int
  num_comments : Int
  text : String
  item_type : String
  deriving Repr, DecidableEq

/-- The `for story in stories` loop of `poll_and_post`.
`spp` is `config.stories_per_poll`; `thresholdOf` composes `detect_topic` and
`config.score_threshold_for` (external classification, passed as an oracle);
`outcome` gives the result of the per-story publish attempt — the summarize /
format / `send_message` sequence inside the per-story `try` — `some message_id`
on success and `none` when it raises (the per-story `except` logs, notifies and
`continue`s); `hookOf` is `result.get("hook", "")` of the formatted message.
On publish success the code calls `add_update_task` and then `mark_posted` and
increments `posted_count`. -/
def poll_loop (now : Nat) (spp : Nat) (thresholdOf : Story → Int)
    (outcome : Story → Option Nat) (chat_id : String) (hookOf : Story → String) :
    List Story → StoreState → Nat → StoreState × Nat
  | [], s, posted_count => (s, posted_count)
  | story :: rest, s, posted_count =>
    if spp ≤ posted_count then (s, posted_count)
    else
      let hn_id := story.id
      if hn_id == "" || (has_been_posted s hn_id).2 then
        poll_loop now spp thresholdOf outcome chat_id hookOf rest s posted_count
      else
        let threshold := thresholdOf story
        if threshold == -1 || decide (story.points < threshold) then
          poll_loop now spp thresholdOf outcome chat_id hookOf rest s posted_count
        else
          match outcome story with
          | none =>
            poll_loop now spp thresholdOf outcome chat_id hookOf rest s posted_count
          | some message_id =>
            let s1 := add_update_task now s hn_id message_id chat_id story.title
                        (hookOf story) story.url story.points story.num_comments
            let s2 := mark_posted now s1 hn_id story.title story.points
            poll_loop now spp thresholdOf outcome chat_id hookOf rest s2
              (posted_count + 1)

/-- `poll_and_post`: the whole cycle body.  `fetchResult` is the outcome of
`fetch_top_stories_with_details(limit=50)`: `none` models the call raising, in
which case control jumps to the cycle-level `except` handler — which notifies
the admin and ends the cycle without reaching `store.prune_old(days=30)`.
On a successful fetch the story loop runs and then `prune_old` runs.
Returns the final state, the number of stories posted, and whether `prune_old`
was executed during the cycle. -/
def poll_and_post (now : Nat) (spp : Nat) (thresholdOf : Story → Int)
    (outcome : Story → Option Nat) (chat_id : String) (hookOf : Story → String)
    (fetchResult : Option (List Story)) (s : StoreState) :
    StoreState × Nat × Bool :=
  match fetchResult with
  | none => (s, 0, false)
  | some stories =>
    let r := poll_loop now spp thresholdOf outcome chat_id hookOf stories s 0
    ((prune_old now 30 r.1).1, r.2, true)

/-! ## General lemmas about the embedding -/

theorem length_filter_add_length_filter_not {α : Type} (p : α → Bool) (l : List α) :
    (l.filter p).length + (l.filter (fun a => !(p a))).length = l.length := by
  induction l with
  | nil => rfl
  | cons x xs ih =>
    by_cases h : p x = true
    · simp only [List.filter_cons, h, if_true, Bool.not_true, Bool.false_eq_true,
        if_false, List.length_cons]
      omega
    · simp only [List.filter_cons, h, if_false, Bool.not_eq_true] at *
      simp only [h, Bool.not_false, if_true, List.length_cons, Bool.false_eq_true,
        if_false]
      omega

/-! ## C1: the phase state machine on the concrete scenario -/

/-- C1: phase state machine of `advance`.  Enqueue `"42"` at minute 1000 with
the defaults (`update_count = 0`, `phase = "10min"`, `next_update_at = 1010`,
`expires_at = 1180`); advancing at minutes 1010, 1020 and 1030 (now advanced
by 10 minutes each call) increments `update_count` to 1, 2, 3; the first two
calls keep `phase = "10min"` and set `next_update_at = now + 10`; the third
call switches `phase` to `"30min"` before choosing the interval and sets
`next_update_at = 1030 + 30 = 1060`. -/
theorem C1_phase_state_machine :
    (add_update_task 1000 StoreState.empty "42" 7 "chan" "T" "H" "u" 10
        2).message_updates.map
        (fun t => (t.update_count, t.phase, t.next_update_at, t.expires_at)) =
      [(0, "10min", 1010, 1180)] ∧
    (advance_update_task 1010
        (add_update_task 1000 StoreState.empty "42" 7 "chan" "T" "H" "u" 10 2)
        "42" 10 2).message_updates.map
        (fun t => (t.update_count, t.phase, t.next_update_at)) =
      [(1, "10min", 1020)] ∧
    (advance_update_task 1020 (advance_update_task 1010
        (add_update_task 1000 StoreState.empty "42" 7 "chan" "T" "H" "u" 10 2)
        "42" 10 2) "42" 10 2).message_updates.map
        (fun t => (t.update_count, t.phase, t.next_update_at)) =
      [(2, "10min", 1030)] ∧
    (advance_update_task 1030 (advance_update_task 1020 (advance_update_task 1010
        (add_update_task 1000 StoreState.empty "42" 7 "chan" "T" "H" "u" 10 2)
        "42" 10 2) "42" 10 2) "42" 10 2).message_updates.map
        (fun t => (t.update_count, t.phase, t.next_update_at)) =
      [(3, "30min", 1060)] :=
  ⟨rfl, rfl, rfl, rfl⟩

/-! ## C5: mark_posted / has_been_posted -/

/-- C5: after `mark_posted`, `has_been_posted` is true; the rows whose key is
the marked id form exactly the one freshly-written row (so repeated calls
overwrite title/score/timestamp and never create a duplicate); and
`has_been_posted` returns the state unchanged (it is a pure `SELECT`). -/
theorem C5_mark_posted_upsert (now : Nat) (s : StoreState) (hn_id title : String)
    (score : Int) :
    (has_been_posted (mark_posted now s hn_id title score) hn_id).2 = true ∧
    (mark_posted now s hn_id title score).posted_items.filter
        (fun r => r.hn_id == hn_id) =
      [{ hn_id := hn_id, title := title, posted_at := now, score := score }] ∧
    (has_been_posted s hn_id).1 = s := by
  refine ⟨?_, ?_, rfl⟩
  · simp [has_been_posted, mark_posted]
  · have hnil : (s.posted_items.filter (fun r => r.hn_id != hn_id)).filter
        (fun r => r.hn_id == hn_id) = [] := by
      rw [List.filter_filter]
      apply List.filter_eq_nil_iff.mpr
      intro a _
      cases h : a.hn_id == hn_id <;> simp [bne, h]
    simp [mark_posted, List.filter_append, hnil]

theorem earliestStep_some (acc : Option UpdateTask) (x : UpdateTask) :
    ∃ c, earliestStep acc x = some c ∧ c.next_update_at ≤ x.next_update_at ∧
      (c = x ∨ acc = some c) ∧
      ∀ b, acc = some b → c.next_update_at ≤ b.next_update_at := by
  cases acc with
  | none =>
    refine ⟨x, rfl, le_refl _, Or.inl rfl, ?_⟩
    intro b hb
    cases hb
  | some b =>
    by_cases hlt : x.next_update_at < b.next_update_at
    · refine ⟨x, by simp [earliestStep, hlt], le_refl _, Or.inl rfl, ?_⟩
      intro b2 hb2
      obtain rfl := Option.some_inj.mp hb2
      omega
    · refine ⟨b, by simp [earliestStep, hlt], by omega, Or.inr rfl, ?_⟩
      intro b2 hb2
      obtain rfl := Option.some_inj.mp hb2
      omega

theorem foldl_earliestStep_spec (l : List UpdateTask) :
    ∀ (acc : Option UpdateTask) (t : UpdateTask),
      l.foldl earliestStep acc = some t →
      (t ∈ l ∨ acc = some t) ∧
      (∀ u ∈ l, t.next_update_at ≤ u.next_update_at) ∧
      (∀ b, acc = some b → t.next_update_at ≤ b.next_update_at) := by
  induction l with
  | nil =>
    intro acc t h
    simp only [List.foldl_nil] at h
    refine ⟨Or.inr h, by simp, fun b hb => ?_⟩
    rw [h] at hb
    obtain rfl := Option.some_inj.mp hb
    exact le_refl _
  | cons x xs ih =>
    intro acc t h
    rw [List.foldl_cons] at h
    obtain ⟨hmem, hmin, hacc⟩ := ih (earliestStep acc x) t h
    obtain ⟨c, hc, hcx, hcor, hcacc⟩ := earliestStep_some acc x
    have htc : t.next_update_at ≤ c.next_update_at := hacc c hc
    refine ⟨?_, ?_, ?_⟩
    · rcases hmem with hm | hm
      · exact Or.inl (List.mem_cons_of_mem _ hm)
      · rw [hc] at hm
        obtain rfl := Option.some_inj.mp hm
        rcases hcor with rfl | hb
        · exact Or.inl (List.mem_cons_self _ _)
        · exact Or.inr hb
    · intro u hu
      rcases List.mem_cons.mp hu with rfl | hu2
      · omega
      · exact hmin u hu2
    · intro b hb
      exact le_trans htc (hcacc b hb)

theorem pickEarliest_spec (l : List UpdateTask) (t : UpdateTask)
    (h : pickEarliest l = some t) :
    t ∈ l ∧ ∀ u ∈ l, t.next_update_at ≤ u.next_update_at := by
  obtain ⟨hmem, hmin, _⟩ := foldl_earliestStep_spec l none t h
  rcases hmem with hm | hm
  · exact ⟨hm, hmin⟩
  · simp at hm

/-! ## C3: get_next_update_task -/

/-- C3: `get_next_update_task` returns at most one task (it yields an
`Option`); a returned task is a row of the table satisfying
`next_update_at <= now` and `expires_at > now`; it has the smallest
`next_update_at` among all qualifying rows; and the call returns the state
unchanged — the query is a pure `SELECT` with no side effect. -/
theorem C3_dequeue_next_due (now : Nat) (s : StoreState) (t : UpdateTask)
    (h : (get_next_update_task now s).2 = some t) :
    (get_next_update_task now s).1 = s ∧
    t ∈ s.message_updates ∧
    t.next_update_at ≤ now ∧ now < t.expires_at ∧
    ∀ u ∈ s.message_updates, isDue now u = true →
      t.next_update_at ≤ u.next_update_at := by
  obtain ⟨hmem, hmin⟩ := pickEarliest_spec _ t h
  have hmem2 := (List.mem_filter.mp hmem).1
  have hdue := (List.mem_filter.mp hmem).2
  simp only [isDue, Bool.and_eq_true, decide_eq_true_eq] at hdue
  exact ⟨rfl, hmem2, hdue.1, hdue.2,
    fun u hu hdu => hmin u (List.mem_filter.mpr ⟨hu, hdu⟩)⟩

/-- A due task used by the dequeue witness: due at minute 50. -/
def taskA : UpdateTask :=
  { hn_id := "a", message_id := 1, chat_id := "c", title := "", hook := "",
    url := "", score := 0, comments := 0, posted_at := 0, last_updated_at := 0,
    update_count := 0, phase := "10min", next_update_at := 50, expires_at := 200 }

/-- A second due task, due earlier (minute 30), so it wins the dequeue. -/
def taskB : UpdateTask :=
  { hn_id := "b", message_id := 2, chat_id := "c", title := "", hook := "",
    url := "", score := 0, comments := 0, posted_at := 0, last_updated_at := 0,
    update_count := 0, phase := "10min", next_update_at := 30, expires_at := 200 }

/-- A queue with two due tasks, for the dequeue witness. -/
def dequeueSampleStore : StoreState := ⟨[], [taskA, taskB]⟩

/-- Witness for `C3_dequeue_next_due`: at minute 100 the query on
`dequeueSampleStore` returns `taskB` (the earlier-due of the two rows), the
state is unchanged, and `taskB` is due, not expired, and no later than
`taskA`. -/
theorem C3_dequeue_next_due_witness :
    (get_next_update_task 100 dequeueSampleStore).1 = dequeueSampleStore ∧
    taskB ∈ dequeueSampleStore.message_updates ∧
    taskB.next_update_at ≤ 100 ∧ 100 < taskB.expires_at ∧
    taskB.next_update_at ≤ taskA.next_update_at :=
  have r := C3_dequeue_next_due 100 dequeueSampleStore taskB rfl
  ⟨r.1, r.2.1, r.2.2.1, r.2.2.2.1,
   r.2.2.2.2 taskA (by decide) (by decide)⟩

/-! ## C2: the nextUpdateAt < expiresAt invariant -/

/-- The `hn_id TEXT PRIMARY KEY` constraint of `message_updates`: pairwise
distinct keys. -/
def keysUnique (l : List UpdateTask) : Prop :=
  l.Pairwise (fun a b => a.hn_id ≠ b.hn_id)

instance (l : List UpdateTask) : Decidable (keysUnique l) := by
  unfold keysUnique
  exact inferInstance

/-- The C2 row invariant together with the primary-key invariant it relies
on: keys are unique and every persisted row has `next_update_at` strictly
before `expires_at`. -/
def schedInvariant (s : StoreState) : Prop :=
  keysUnique s.message_updates ∧
  ∀ t ∈ s.message_updates, t.next_update_at < t.expires_at

instance (s : StoreState) : Decidable (schedInvariant s) := by
  unfold schedInvariant
  exact inferInstance

theorem keysUnique_eq_of_mem :
    ∀ {l : List UpdateTask}, keysUnique l →
      ∀ {a b : UpdateTask}, a ∈ l → b ∈ l → a.hn_id = b.hn_id → a = b := by
  intro l
  induction l with
  | nil =>
    intro _ a b ha
    cases ha
  | cons x xs ih =>
    intro h a b ha hb hk
    have hx := List.pairwise_cons.mp h
    rcases List.mem_cons.mp ha with rfl | ha2
    · rcases List.mem_cons.mp hb with rfl | hb2
      · rfl
      · exact absurd hk (hx.1 b hb2)
    · rcases List.mem_cons.mp hb with rfl | hb2
      · exact absurd hk.symm (hx.1 a ha2)
      · exact ih hx.2 ha2 hb2 hk

theorem keysUnique_map {l : List UpdateTask} (g : UpdateTask → UpdateTask)
    (hg : ∀ t, (g t).hn_id = t.hn_id) (h : keysUnique l) :
    keysUnique (l.map g) := by
  unfold keysUnique at *
  rw [List.pairwise_map]
  refine h.imp ?_
  intro a b hab
  rw [hg, hg]
  exact hab

/-- C2: the empty database satisfies the invariant; `add_update_task`
establishes it for the new row (`now + 10 < now + 180`) and preserves it for
the others; and `advance_update_task` preserves it — when the computed
`next_update` would reach `expires_at` it deletes the row instead of storing
a violating one. -/
theorem C2_next_before_expiry_invariant (now : Nat) (s : StoreState)
    (hn_id : String) (message_id : Nat) (chat_id title hook url : String)
    (score comments new_score new_comments : Int)
    (h : schedInvariant s) :
    schedInvariant StoreState.empty ∧
    schedInvariant (add_update_task now s hn_id message_id chat_id title hook
      url score comments) ∧
    schedInvariant (advance_update_task now s hn_id new_score new_comments) := by
  obtain ⟨hu, hinv⟩ := h
  refine ⟨⟨List.Pairwise.nil, fun t ht => absurd ht (List.not_mem_nil t)⟩,
    ⟨?_, ?_⟩, ?_⟩
  · unfold keysUnique at *
    rw [add_update_task, List.pairwise_append]
    refine ⟨List.Pairwise.sublist (List.filter_sublist _) hu,
      List.pairwise_cons.mpr ⟨fun b hb => absurd hb (List.not_mem_nil _),
        List.Pairwise.nil⟩, ?_⟩
    intro a ha b hb
    rcases List.mem_filter.mp ha with ⟨_, hkey⟩
    rcases List.mem_singleton.mp hb with rfl
    simpa using hkey
  · intro t ht
    rw [add_update_task] at ht
    rcases List.mem_append.mp ht with hin | hnew
    · exact hinv t (List.mem_of_mem_filter hin)
    · rcases List.mem_singleton.mp hnew with rfl
      show now + 10 < now + 180
      omega
  · unfold advance_update_task
    split
    · exact ⟨hu, hinv⟩
    · rename_i row hfind
      have hrowmem : row ∈ s.message_updates := List.mem_of_find?_eq_some hfind
      have hrowkey : row.hn_id = hn_id := by
        have := List.find?_some hfind
        simpa using this
      split
      · refine ⟨List.Pairwise.sublist (List.filter_sublist _) hu, ?_⟩
        intro t ht
        exact hinv t (List.mem_of_mem_filter ht)
      · rename_i hexp
        refine ⟨?_, ?_⟩
        · refine keysUnique_map _ ?_ hu
          intro t
          by_cases ht : (t.hn_id == hn_id) = true <;> simp [ht]
        · intro t ht
          rcases List.mem_map.mp ht with ⟨u, hu2, rfl⟩
          by_cases hk : (u.hn_id == hn_id) = true
          · have hurow : u = row :=
              keysUnique_eq_of_mem hu hu2 hrowmem
                (by rw [hrowkey]; exact eq_of_beq hk)
            simp only [hk, if_true]
            subst hurow
            show (advance_compute now u).2.2 < u.expires_at
            omega
          · simp only [hk, if_false]
            exact hinv u hu2

/-- A single-row queue (row `"w"`, due at 30, expiring at 200) satisfying the
invariant, for the C2 witness. -/
def invariantSampleStore : StoreState :=
  ⟨[], [{ hn_id := "w", message_id := 9, chat_id := "c", title := "", hook := "",
          url := "", score := 0, comments := 0, posted_at := 0,
          last_updated_at := 0, update_count := 0, phase := "10min",
          next_update_at := 30, expires_at := 200 }]⟩

/-- Witness for `C2_next_before_expiry_invariant` at minute 100 on a concrete
single-row store. -/
theorem C2_next_before_expiry_invariant_witness :
    schedInvariant
      (add_update_task 100 invariantSampleStore "z" 1 "c" "t" "h" "u" 1 2) ∧
    schedInvariant (advance_update_task 100 invariantSampleStore "w" 5 6) :=
  have r := C2_next_before_expiry_invariant 100 invariantSampleStore "z" 1 "c"
    "t" "h" "u" 1 2 5 6 (by decide)
  have r2 := C2_next_before_expiry_invariant 100 invariantSampleStore "w" 1 "c"
    "t" "h" "u" 1 2 5 6 (by decide)
  ⟨r.2.1, r2.2.2⟩

/-! ## C4: terminal retirement -/

/-- The public operations of `Store`, each tagged with the wall-clock time at
which it runs, for reasoning about arbitrary later call sequences. -/
inductive StoreOp where
  | opMarkPosted (now : Nat) (hn_id title : String) (score : Int)
  | opPruneOld (now days : Nat)
  | opAddUpdateTask (now : Nat) (hn_id : String) (message_id : Nat)
      (chat_id title hook url : String) (score comments : Int)
  | opGetNext (now : Nat)
  | opAdvance (now : Nat) (hn_id : String) (score comments : Int)
  | opRemoveExpired (now : Nat)
  deriving Repr, DecidableEq

/-- Run one store operation (reads keep the state; `get_next_update_task`
returns its first component unchanged). -/
def applyOp (s : StoreState) : StoreOp → StoreState
  | .opMarkPosted now id title sc => mark_posted now s id title sc
  | .opPruneOld now days => (prune_old now days s).1
  | .opAddUpdateTask now id mid chat title hook url sc cm =>
      add_update_task now s id mid chat title hook url sc cm
  | .opGetNext now => (get_next_update_task now s).1
  | .opAdvance now id sc cm => advance_update_task now s id sc cm
  | .opRemoveExpired now => remove_expired_updates now s

/-- Run a sequence of store operations in order. -/
def applyOps (s : StoreState) (ops : List StoreOp) : StoreState :=
  ops.foldl applyOp s

/-- No live `message_updates` row carries the given id. -/
def taskAbsent (s : StoreState) (hn_id : String) : Prop :=
  ∀ t ∈ s.message_updates, t.hn_id ≠ hn_id

instance (s : StoreState) (hn_id : String) : Decidable (taskAbsent s hn_id) := by
  unfold taskAbsent
  exact inferInstance

/-- The id an operation enqueues, for operations that are an
`add_update_task`; `none` for every other operation. -/
def enqueuesId : StoreOp → Option String
  | .opAddUpdateTask _ id _ _ _ _ _ _ _ => some id
  | _ => none

theorem taskAbsent_applyOp (s : StoreState) (hn_id : String) (op : StoreOp)
    (habs : taskAbsent s hn_id) (hop : enqueuesId op ≠ some hn_id) :
    taskAbsent (applyOp s op) hn_id := by
  cases op with
  | opMarkPosted now id title sc => exact habs
  | opPruneOld now days => exact habs
  | opGetNext now => exact habs
  | opRemoveExpired now =>
    intro t ht
    exact habs t (List.mem_of_mem_filter ht)
  | opAddUpdateTask now id mid chat title hook url sc cm =>
    intro t ht
    rcases List.mem_append.mp ht with hin | hnew
    · exact habs t (List.mem_of_mem_filter hin)
    · rcases List.mem_singleton.mp hnew with rfl
      intro hkey
      exact hop (by simp [enqueuesId]; exact hkey)
  | opAdvance now id sc cm =>
    show taskAbsent (advance_update_task now s id sc cm) hn_id
    unfold advance_update_task
    split
    · exact habs
    · split
      · intro t ht
        exact habs t (List.mem_of_mem_filter ht)
      · intro t ht
        rcases List.mem_map.mp ht with ⟨u, hu2, rfl⟩
        by_cases hk : (u.hn_id == id) = true
        · simpa [hk] using habs u hu2
        · simpa [hk] using habs u hu2

theorem taskAbsent_applyOps (hn_id : String) :
    ∀ (ops : List StoreOp) (s : StoreState), taskAbsent s hn_id →
      (∀ op ∈ ops, enqueuesId op ≠ some hn_id) →
      taskAbsent (applyOps s ops) hn_id := by
  intro ops
  induction ops with
  | nil =>
    intro s h _
    exact h
  | cons op rest ih =>
    intro s h hops
    exact ih (applyOp s op)
      (taskAbsent_applyOp s hn_id op h (hops op (List.mem_cons_self _ _)))
      (fun o ho => hops o (List.mem_cons_of_mem _ ho))

/-- C4: when `advance_update_task` finds the row and the computed
`next_update` is at or past `expires_at`, that call deletes the row; after any
later sequence of store operations none of which enqueues the same id, the id
is still absent, and `get_next_update_task` never returns a task with that
id. -/
theorem C4_terminal_retirement (now : Nat) (s : StoreState) (hn_id : String)
    (new_score new_comments : Int) (row : UpdateTask)
    (hfind : s.message_updates.find? (fun t => t.hn_id == hn_id) = some row)
    (hexp : row.expires_at ≤ (advance_compute now row).2.2)
    (ops : List StoreOp) (hops : ∀ op ∈ ops, enqueuesId op ≠ some hn_id)
    (now2 : Nat) (t : UpdateTask)
    (hdq : (get_next_update_task now2
        (applyOps (advance_update_task now s hn_id new_score new_comments)
          ops)).2 = some t) :
    taskAbsent (advance_update_task now s hn_id new_score new_comments) hn_id ∧
    t.hn_id ≠ hn_id := by
  have habs :
      taskAbsent (advance_update_task now s hn_id new_score new_comments)
        hn_id := by
    unfold advance_update_task
    rw [hfind]
    simp only [hexp, if_true]
    intro t2 ht2
    rcases List.mem_filter.mp ht2 with ⟨_, hk⟩
    simpa using hk
  refine ⟨habs, ?_⟩
  have habs2 := taskAbsent_applyOps hn_id ops _ habs hops
  obtain ⟨hmem, _⟩ := pickEarliest_spec _ t hdq
  exact habs2 t (List.mem_filter.mp hmem).1

/-- The row the C4 witness retires: due at 100, expiring at 105, so the
advance at minute 100 computes `next_update = 110 ≥ 105` and deletes it. -/
def retireTask42 : UpdateTask :=
  { hn_id := "42", message_id := 1, chat_id := "c", title := "", hook := "",
    url := "", score := 1, comments := 1, posted_at := 0, last_updated_at := 0,
    update_count := 0, phase := "10min", next_update_at := 100,
    expires_at := 105 }

/-- A long-lived second row, still alive after the retirement. -/
def retireTaskX : UpdateTask :=
  { hn_id := "x", message_id := 2, chat_id := "c", title := "", hook := "",
    url := "", score := 0, comments := 0, posted_at := 0, last_updated_at := 0,
    update_count := 0, phase := "10min", next_update_at := 110,
    expires_at := 300 }

/-- Queue with the about-to-retire row and a long-lived one. -/
def retireSampleStore : StoreState := ⟨[], [retireTask42, retireTaskX]⟩

/-- Witness for `C4_terminal_retirement`: advancing `"42"` at minute 100
deletes it; after a cleanup sweep and an unrelated ledger write the dequeue at
minute 150 returns `"x"`, not `"42"`. -/
theorem C4_terminal_retirement_witness :
    taskAbsent (advance_update_task 100 retireSampleStore "42" 7 3) "42" ∧
    retireTaskX.hn_id ≠ "42" :=
  C4_terminal_retirement 100 retireSampleStore "42" 7 3 retireTask42 rfl
    (by decide) [.opRemoveExpired 120, .opMarkPosted 120 "y" "t" 1]
    (by decide) 150 retireTaskX rfl

/-! ## C6: prune_old -/

/-- C6 (amended): `prune_old` deletes exactly the `posted_items` rows whose
`posted_at` is strictly before `now - retentionWindow`, leaves every newer row
in place unchanged, does not touch `message_updates`, and logs the count of
rows it removed (the removed count plus the surviving count equals the
original count); the Python function's return value is `None`, not the
count. -/
theorem C6_prune_old_behavior (now days : Nat) (s : StoreState) :
    (∀ p ∈ s.posted_items, p.posted_at < now - days * 1440 →
        p ∉ (prune_old now days s).1.posted_items) ∧
    (∀ p ∈ s.posted_items, now - days * 1440 ≤ p.posted_at →
        p ∈ (prune_old now days s).1.posted_items) ∧
    (∀ p ∈ (prune_old now days s).1.posted_items, p ∈ s.posted_items) ∧
    (prune_old now days s).1.message_updates = s.message_updates ∧
    (prune_old now days s).2 + (prune_old now days s).1.posted_items.length =
      s.posted_items.length ∧
    prune_old_return now days s = none := by
  refine ⟨?_, ?_, ?_, rfl, ?_, rfl⟩
  · intro p hp hlt hmem
    rcases List.mem_filter.mp hmem with ⟨_, hkeep⟩
    simp only [Bool.not_eq_eq_eq_not, Bool.not_true, decide_eq_false_iff_not] at hkeep
    omega
  · intro p hp hle
    refine List.mem_filter.mpr ⟨hp, ?_⟩
    simp only [Bool.not_eq_eq_eq_not, Bool.not_true, decide_eq_false_iff_not]
    omega
  · intro p hp
    exact (List.mem_filter.mp hp).1
  · exact length_filter_add_length_filter_not _ _

/-- A ledger with one 100000-minute-old row, for exercising `prune_old`. -/
def pruneSampleStore : StoreState :=
  ⟨[{ hn_id := "old", title := "t", posted_at := 0, score := 1 }], []⟩

/-- C6 counterexample: the claim says `pruneOlderThan` "returns the count of
rows removed", but on a store holding one stale row the call removes one row
(the logged rowcount is 1) while the Python function's value is `None` — the
count is never returned to the caller. -/
theorem C6_counterexample :
    (prune_old 100000 30 pruneSampleStore).2 = 1 ∧
    (prune_old 100000 30 pruneSampleStore).1.posted_items = [] ∧
    prune_old_return 100000 30 pruneSampleStore = none :=
  ⟨rfl, rfl, rfl⟩

/-- Witness for `C6_prune_old_behavior` at a concrete store: the stale row is
gone after pruning at minute 100000 with a 30-day window. -/
theorem C6_prune_old_behavior_witness :
    ({ hn_id := "old", title := "t", posted_at := 0, score := 1 } : PostedItem) ∉
      (prune_old 100000 30 pruneSampleStore).1.posted_items :=
  (C6_prune_old_behavior 100000 30 pruneSampleStore).1
    { hn_id := "old", title := "t", posted_at := 0, score := 1 }
    (by decide) (by decide)

/-! ## C7 / C8: the update worker loop body -/

/-- C7: when the dequeued task's metrics changed and the edit attempt raises
`RetryAfter retry`, the worker sleeps that delay and `continue`s: the store is
unchanged (so `advance_update_task` was not called and the task's
`update_count`, `phase` and `next_update_at` are untouched), no advance action
is performed, and re-running the dequeue on the resulting state yields the
identical task again. -/
theorem C7_rate_limit_retries_without_advance (now : Nat) (s : StoreState)
    (cycle : Nat) (new_score new_comments : Int) (retry : Nat)
    (task : UpdateTask)
    (hdq : (get_next_update_task now s).2 = some task)
    (hch : new_score ≠ task.score ∨ new_comments ≠ task.comments) :
    update_worker_iteration now s cycle (some (new_score, new_comments))
        (.retryAfter retry) =
      (s, [.fetchItem task.hn_id, .editMessage task.chat_id task.message_id,
           .sleep retry], cycle) ∧
    (∀ id sc cm, WAction.advanceCalled id sc cm ∉
      (update_worker_iteration now s cycle (some (new_score, new_comments))
        (.retryAfter retry)).2.1) ∧
    (get_next_update_task now
      (update_worker_iteration now s cycle (some (new_score, new_comments))
        (.retryAfter retry)).1).2 = some task := by
  have hiter : update_worker_iteration now s cycle
      (some (new_score, new_comments)) (.retryAfter retry) =
      (s, [.fetchItem task.hn_id, .editMessage task.chat_id task.message_id,
           .sleep retry], cycle) := by
    unfold update_worker_iteration
    simp only [hdq]
    rw [if_pos hch]
  refine ⟨hiter, ?_, ?_⟩
  · intro id sc cm
    rw [hiter]
    simp
  · rw [hiter]
    exact hdq

/-- The task of the worker witnesses: stored score 10, comments 2, due at
minute 30, expiring at minute 200. -/
def workerTask : UpdateTask :=
  { hn_id := "w7", message_id := 5, chat_id := "c", title := "", hook := "",
    url := "", score := 10, comments := 2, posted_at := 0, last_updated_at := 0,
    update_count := 0, phase := "10min", next_update_at := 30,
    expires_at := 200 }

/-- A queue holding only `workerTask`. -/
def workerSampleStore : StoreState := ⟨[], [workerTask]⟩

/-- Witness for `C7_rate_limit_retries_without_advance`: at minute 100 the
fetch reports (11, 3) ≠ (10, 2), the edit is rate-limited with a 30-second
retry delay, and the pass leaves the store untouched, only sleeping. -/
theorem C7_rate_limit_witness :
    update_worker_iteration 100 workerSampleStore 0 (some (11, 3))
        (.retryAfter 30) =
      (workerSampleStore, [.fetchItem "w7", .editMessage "c" 5, .sleep 30], 0) :=
  (C7_rate_limit_retries_without_advance 100 workerSampleStore 0 11 3 30
    workerTask rfl (by decide)).1

/-- C8: when the metrics fetch for the dequeued task fails, the worker still
calls `advance_update_task` with the task's previously stored score and
comment values, so the schedule progresses and the loop moves on. -/
theorem C8_fetch_failure_still_advances (now : Nat) (s : StoreState)
    (cycle : Nat) (edit : EditResult) (task : UpdateTask)
    (hdq : (get_next_update_task now s).2 = some task) :
    (update_worker_iteration now s cycle none edit).1 =
      advance_update_task now s task.hn_id task.score task.comments ∧
    (update_worker_iteration now s cycle none edit).2.1 =
      [.fetchItem task.hn_id,
       .advanceCalled task.hn_id task.score task.comments, .sleep 1] := by
  unfold update_worker_iteration
  simp [hdq]

/-- Witness for `C8_fetch_failure_still_advances` on the one-task queue: the
failed fetch leads to an advance with the stored values 10 and 2, and the
task's row is rescheduled to minute 110 with `update_count = 1`. -/
theorem C8_fetch_failure_witness :
    (update_worker_iteration 100 workerSampleStore 0 none .ok).1 =
      advance_update_task 100 workerSampleStore "w7" 10 2 ∧
    (update_worker_iteration 100 workerSampleStore 0 none .ok).2.1 =
      [.fetchItem "w7", .advanceCalled "w7" 10 2, .sleep 1] :=
  C8_fetch_failure_still_advances 100 workerSampleStore 0 .ok workerTask rfl

/-! ## C9: prune at the end of the poll cycle -/

/-- A ledger holding one stale row (posted at minute 0), used to observe
whether the retention sweep ran. -/
def staleLedgerStore : StoreState :=
  ⟨[{ hn_id := "s", title := "t", posted_at := 0, score := 1 }], []⟩

/-- C9 counterexample: the claim says every poll cycle ends by running the
prune, also on a cycle-level failure.  But `store.prune_old(days=30)` is the
last statement inside the `try` block: when `fetch_top_stories_with_details`
raises, control jumps to the `except` handler, which only reports — the prune
is skipped, and a stale ledger row that the prune would have removed
survives. -/
theorem C9_counterexample :
    (poll_and_post 100000 5 (fun _ => 0) (fun _ => none) "chan" (fun _ => "")
        none staleLedgerStore).2.2 = false ∧
    (poll_and_post 100000 5 (fun _ => 0) (fun _ => none) "chan" (fun _ => "")
        none staleLedgerStore).1 = staleLedgerStore ∧
    (prune_old 100000 30 staleLedgerStore).1 ≠ staleLedgerStore :=
  ⟨rfl, rfl, by decide⟩

/-- C9 (amended): `prune_old` with the default 30-day window runs at the end
of every poll cycle whose body completes — per-item failures included, since
they are caught inside the story loop — so no stale row survives such a
cycle; on a cycle-level failure the `except` handler ends the cycle without
running the prune and the store is left untouched. -/
theorem C9_prune_only_on_cycle_completion (now spp : Nat)
    (thresholdOf : Story → Int) (outcome : Story → Option Nat)
    (chat_id : String) (hookOf : Story → String) (stories : List Story)
    (s : StoreState) :
    (poll_and_post now spp thresholdOf outcome chat_id hookOf (some stories)
        s).2.2 = true ∧
    (∀ p ∈ (poll_and_post now spp thresholdOf outcome chat_id hookOf
        (some stories) s).1.posted_items, ¬ (p.posted_at < now - 30 * 1440)) ∧
    (poll_and_post now spp thresholdOf outcome chat_id hookOf none s).2.2 =
      false ∧
    (poll_and_post now spp thresholdOf outcome chat_id hookOf none s).1 = s := by
  refine ⟨rfl, ?_, rfl, rfl⟩
  intro p hp
  have hkeep := (List.mem_filter.mp hp).2
  simp only [Bool.not_eq_eq_eq_not, Bool.not_true, decide_eq_false_iff_not]
    at hkeep
  exact hkeep

/-- Witness for `C9_prune_only_on_cycle_completion` on the stale one-row
ledger: with an empty story batch the completed cycle runs the prune, while
the failed fetch leaves the flag false. -/
theorem C9_prune_witness :
    (poll_and_post 100000 5 (fun _ => 0) (fun _ => none) "chan" (fun _ => "")
        (some []) staleLedgerStore).2.2 = true ∧
    (poll_and_post 100000 5 (fun _ => 0) (fun _ => none) "chan" (fun _ => "")
        none staleLedgerStore).2.2 = false :=
  have r := C9_prune_only_on_cycle_completion 100000 5 (fun _ => 0)
    (fun _ => none) "chan" (fun _ => "") [] staleLedgerStore
  ⟨r.1, r.2.2.1⟩

/-! ## C10: candidates with a missing or empty id -/

/-- C10: a story whose id is missing or empty (`story.get("id", "")` falsy)
is skipped by the guard at the top of the story loop, before any processing:
the cycle's result is identical to the cycle run without that story — it is
never published, never marked in the ledger, never enqueued, and does not
count toward the per-cycle maximum. -/
theorem C10_empty_id_skipped (now spp : Nat) (thresholdOf : Story → Int)
    (outcome : Story → Option Nat) (chat_id : String) (hookOf : Story → String)
    (story : Story) (rest : List Story) (s : StoreState) (posted_count : Nat)
    (hid : story.id = "") :
    poll_loop now spp thresholdOf outcome chat_id hookOf (story :: rest) s
        posted_count =
      poll_loop now spp thresholdOf outcome chat_id hookOf rest s
        posted_count := by
  by_cases hbreak : spp ≤ posted_count
  · cases rest with
    | nil => simp [poll_loop, hbreak]
    | cons y ys => simp [poll_loop, hbreak]
  · simp [poll_loop, hbreak, hid]

/-- A high-score story with an empty id, which would pass every other filter
and be published. -/
def emptyIdStory : Story :=
  { id := "", title := "t", url := "u", points := 100, num_comments := 5,
    text := "", item_type := "story" }

/-- Witness for `C10_empty_id_skipped`: processing the batch containing only
`emptyIdStory` — whose publish attempt would succeed — is the same as
processing the empty batch. -/
theorem C10_empty_id_witness :
    poll_loop 100 5 (fun _ => 0) (fun _ => some 1) "chan" (fun _ => "")
        [emptyIdStory] StoreState.empty 0 =
      poll_loop 100 5 (fun _ => 0) (fun _ => some 1) "chan" (fun _ => "")
        [] StoreState.empty 0 :=
  C10_empty_id_skipped 100 5 (fun _ => 0) (fun _ => some 1) "chan"
    (fun _ => "") emptyIdStory [] StoreState.empty 0 rfl

end Hntldr
